import Mathlib

/-!
A verification development for the contextual product-search core
(`vector_store.py`, `search.py`, `models.py`).

The Python source is shallowly embedded:
- Python floats are modelled as exact rationals (`ℚ`); Python ints as `ℤ`/`ℕ`.
- Fallible code (code that can raise) returns `Option`, with `none` standing
  for the raised exception.
- SQL `NULL`-able string columns are modelled as `Option String`
  (`none` = NULL / non-string value such as a pandas NaN read back from SQLite).
- `re.search` over the five concrete patterns of `search.py` is modelled by a
  small backtracking matcher (`matchSeqF`) with Python priority semantics:
  leftmost starting position first, greedy quantifiers, left-priority
  alternation.  The matcher is fuel-indexed (structural recursion on the fuel)
  so that the kernel can evaluate it on concrete inputs; the fuel bound is a
  function of the (static) pattern only, never of the subject string, and
  `RE_FUEL = 64` strictly dominates the recursion depth of every pattern used.
-/

namespace ContextualSearch

/- The four arithmetic operations on `Rat` and `Rat.ofScientific` ship marked
irreducible; re-marking them semireducible for this development lets concrete
rational arithmetic evaluate inside `decide`/`rfl` proofs. -/
attribute [local semireducible] Rat.add Rat.mul Rat.sub Rat.inv Rat.ofScientific

/-! Section: Python primitives -/

/-- ASCII model of `str.lower` on a single character (all text handled by the
extractors and filters is ASCII). -/
def pyCharLower (c : Char) : Char :=
  if 'A' ≤ c ∧ c ≤ 'Z' then Char.ofNat (c.toNat + 32) else c

/-- Model of `str.lower` on a character list. -/
def pyLower (s : List Char) : List Char := s.map pyCharLower

/-- Model of `str.lower` on a `String`. -/
def strLower (s : String) : String := String.mk (pyLower s.data)

/-- Python substring test `needle in hay` on character lists. -/
def listContains (hay needle : List Char) : Bool :=
  (List.range (hay.length + 1)).any (fun i => needle.isPrefixOf (hay.drop i))

/-- Python substring test `needle in hay` on strings. -/
def strContains (hay needle : String) : Bool := listContains hay.data needle.data

/-- Python list indexing `l[i]` with an `int` index: negative indices wrap
from the end; out-of-range indexing raises `IndexError` (modelled as `none`). -/
def pyIndex {α : Type} (l : List α) (i : ℤ) : Option α :=
  let j : ℤ := if i < 0 then (l.length : ℤ) + i else i
  if 0 ≤ j then l.get? j.toNat else none

/-- Python `min` over a list of ints; `ValueError` on the empty list is `none`. -/
def pyMin (l : List ℤ) : Option ℤ :=
  match l with
  | [] => none
  | a :: rest => some (rest.foldl min a)

/-- Python `max` over a list of ints; `ValueError` on the empty list is `none`. -/
def pyMax (l : List ℤ) : Option ℤ :=
  match l with
  | [] => none
  | a :: rest => some (rest.foldl max a)

/-- Python `int(x)` truncation toward zero of a float (here: exact rational);
integer T-division of the normalised numerator by the denominator. -/
def pyTrunc (x : ℚ) : ℤ := Int.tdiv x.num (x.den : ℤ)

/-- The floor of a rational as floor-division of numerator by denominator. -/
def ratFloor (x : ℚ) : ℤ := Int.fdiv x.num (x.den : ℤ)

/-- Rounding of `x` to `n = 4` decimal digits, Python `round(x, 4)` with the
half-to-even tie rule (float representation effects are idealised away). -/
def round4 (x : ℚ) : ℚ :=
  let y : ℚ := x * 10000
  let f : ℤ := ratFloor y
  let r : ℚ := y - f
  let n : ℤ :=
    if r < 1/2 then f
    else if 1/2 < r then f + 1
    else if f % 2 = 0 then f else f + 1
  (n : ℚ) / 10000

/-- Value of a digit list, most significant first (`int` on a digit string). -/
def digitsNat (cs : List Char) : ℕ :=
  cs.foldl (fun acc c => acc * 10 + (c.toNat - '0'.toNat)) 0

/-- Python `int(s)` restricted to the token shapes reaching it in `search.py`
(`none` = `ValueError`, in particular on tokens containing a decimal point). -/
def pyIntParse (cs : List Char) : Option ℤ :=
  if cs ≠ [] ∧ cs.all Char.isDigit then some (digitsNat cs) else none

/-- Fractional value of the digit list after a decimal point. -/
def fracVal (cs : List Char) : ℚ := (digitsNat cs : ℚ) / (10 ^ cs.length : ℕ)

/-- Python `float(s)` restricted to the token shapes produced by the numeric
regex groups of `search.py` (digits, optional point, optional fraction digits);
`none` = `ValueError`. -/
def pyFloatParse (cs : List Char) : Option ℚ :=
  let ip := cs.takeWhile Char.isDigit
  let rest := cs.dropWhile Char.isDigit
  if ip = [] then none
  else
    match rest with
    | [] => some (digitsNat ip : ℚ)
    | '.' :: fr => if fr.all Char.isDigit then some ((digitsNat ip : ℚ) + fracVal fr) else none
    | _ => none

/-! Section: A model of `re.search` for the concrete patterns of `search.py`

Items of a pattern: literal words, single-character classes with the Python
quantifiers `+`, `*`, `?`, literal alternations (capturing, as every
alternation in the source patterns is parenthesised), capturing groups over a
character-class sequence, and a non-capturing optional sequence standing for
the inner `(\.\d)?` of the rating patterns (its Python capture is never read;
group numbers used by the callers are adjusted accordingly and noted at each
pattern). -/

inductive RItem where
  | lit : List Char → RItem
  | cls : (Char → Bool) → RItem
  | plus : (Char → Bool) → RItem
  | star : (Char → Bool) → RItem
  | opt : (Char → Bool) → RItem
  | alt : List (List Char) → RItem
  | grp : List RItem → RItem
  | optSeq : List RItem → RItem

/-- Captured groups, in order of completion (equals opening order for the
nesting-free patterns used here). -/
abbrev Caps := List (List Char)

/-- Length of the longest run of characters satisfying `c` at the head. -/
def maxRun (c : Char → Bool) : List Char → ℕ
  | [] => 0
  | a :: rest => if c a then maxRun c rest + 1 else 0

/-- Try `f n, f (n-1), ..., f lo` in order, returning the first success:
greedy quantifier semantics (longest consumption first). -/
def tryDescN {α : Type} (f : ℕ → Option α) (lo : ℕ) : ℕ → Option α
  | 0 => if lo = 0 then f 0 else none
  | n + 1 => if n + 1 < lo then none else (f (n + 1)).orElse (fun _ => tryDescN f lo n)

/-- Backtracking matcher in continuation-passing style.  `matchSeqF fuel items
s caps k` matches `items` against a prefix of `s` and passes the remaining
characters and extended captures to `k`; alternatives are tried in Python
priority order.  Structural recursion on `fuel`; fuel is consumed once per
sequence step and once per group descent, so any fuel exceeding the total item
count of the (static) pattern is enough and the `0` case is unreachable for
`RE_FUEL` on the patterns below. -/
def matchSeqF : ℕ → List RItem → List Char → Caps →
    (List Char → Caps → Option Caps) → Option Caps
  | 0, _, _, _, _ => none
  | _ + 1, [], s, caps, k => k s caps
  | fuel + 1, item :: rest, s, caps, k =>
    let kNext : List Char → Caps → Option Caps :=
      fun s' c' => matchSeqF fuel rest s' c' k
    match item with
    | .lit w => if w.isPrefixOf s then kNext (s.drop w.length) caps else none
    | .cls c =>
      match s with
      | [] => none
      | a :: tl => if c a then kNext tl caps else none
    | .plus c => tryDescN (fun i => kNext (s.drop i) caps) 1 (maxRun c s)
    | .star c => tryDescN (fun i => kNext (s.drop i) caps) 0 (maxRun c s)
    | .opt c =>
      match s with
      | a :: tl =>
        if c a then (kNext tl caps).orElse (fun _ => kNext (a :: tl) caps)
        else kNext (a :: tl) caps
      | [] => kNext [] caps
    | .alt ws =>
      ws.foldr
        (fun w acc =>
          if w.isPrefixOf s then
            (kNext (s.drop w.length) (caps ++ [w])).orElse (fun _ => acc)
          else acc)
        none
    | .grp items =>
      matchSeqF fuel items s caps
        (fun rest' caps' => kNext rest' (caps' ++ [s.take (s.length - rest'.length)]))
    | .optSeq items =>
      (matchSeqF fuel items s caps (fun rest' _ => kNext rest' caps)).orElse
        (fun _ => kNext s caps)

/-- Fuel bound; strictly larger than the recursion depth any pattern of
`search.py` can demand (their total item counts are at most 11). -/
def RE_FUEL : ℕ := 64

/-- Attempt a match at each start position, leftmost first (`re.search`). -/
def reSearchAux (pat : List RItem) : List Char → Option Caps
  | [] => matchSeqF RE_FUEL pat [] [] (fun _ c => some c)
  | a :: rest =>
    (matchSeqF RE_FUEL pat (a :: rest) [] (fun _ c => some c)).orElse
      (fun _ => reSearchAux pat rest)

/-- Model of `re.search(pat, s)`: `none` = no match, `some caps` = the captures of the
leftmost match. -/
def reSearch (pat : List RItem) (s : List Char) : Option Caps := reSearchAux pat s

/-- Python `\s` (ASCII model: space, tab, newline, carriage return, vertical
tab, form feed). -/
def isSpaceCh (c : Char) : Bool :=
  c = ' ' || c = '\t' || c = '\n' || c = '\r' || c.toNat = 11 || c.toNat = 12

/-- Python `\w` (ASCII model: letters, digits, underscore). -/
def isWordCh (c : Char) : Bool := c.isAlphanum || c = '_'

/-! Section: The concrete patterns of `search.py` -/

/-- The numeric token group of the price patterns (source regex fragment
with digits, an optional point, further digits and an optional k suffix). -/
def numTok : RItem :=
  .grp [.plus Char.isDigit, .opt (· == '.'), .star Char.isDigit, .opt (· == 'k')]

/-- Embeds `search.py:65`, the price pattern for a range bounded on both sides
(the word between, whitespace, a captured numeric token, whitespace, the word
and, whitespace, a captured numeric token).  Captures: index 0 = group 1,
index 1 = group 2. -/
def patBetween : List RItem :=
  [.lit ("between").data, .plus isSpaceCh, numTok,
   .plus isSpaceCh, .lit ("and").data, .plus isSpaceCh, numTok]

/-- Embeds `search.py:70`, the upper-bound price pattern.  Captures: index 0 =
group 1 (the keyword), index 1 = group 2 (the numeric token). -/
def patUnder : List RItem :=
  [.alt ["under".data, "below".data, "less than".data], .plus isSpaceCh, numTok]

/-- Embeds `search.py:75`, the lower-bound price pattern.  Captures as in
`patUnder`. -/
def patAbove : List RItem :=
  [.alt ["above".data, "over".data, "more than".data], .plus isSpaceCh, numTok]

/-- Embeds `search.py:84`, the size pattern.  Capture index 0 = group 1. -/
def patSize : List RItem :=
  [.lit ("size").data, .star isSpaceCh, .grp [.plus isWordCh]]

/-- Embeds `search.py:113`, the bounded rating pattern.  The inner optional
fraction is modelled non-capturing (its Python group 3 is never read), so the
numeric Python group 2 is capture index 1 here. -/
def patRatingBound : List RItem :=
  [.alt ["above".data, "over".data, "more than".data], .plus isSpaceCh,
   .grp [.cls Char.isDigit, .optSeq [.cls (· == '.'), .cls Char.isDigit]],
   .star isSpaceCh, .alt ["star".data, "rating".data]]

/-- Embeds `search.py:117`, the plain rating pattern.  The numeric Python group 1 is
capture index 0 (the trailing keyword alternation is capture index 1, unread). -/
def patRatingPlain : List RItem :=
  [.grp [.cls Char.isDigit, .optSeq [.cls (· == '.'), .cls Char.isDigit]],
   .star isSpaceCh, .alt ["star".data, "rating".data]]

/-! Section: `models.py` -/

/-- Embeds `models.Product`: the product row.  The string-valued attribute columns
are nullable (`Option`); the numeric fields are modelled non-null as the
ingestion pipeline always supplies them. -/
structure Product where
  product_id : String
  title : String
  description : String
  category : String
  brand : Option String
  price : ℚ
  size : Option String
  color : Option String
  rating : ℚ
  click_count : ℤ
  add_to_cart_count : ℤ
  purchase_count : ℤ
deriving DecidableEq

/-! Section: `vector_store.py` -/

/-- Dimension of the embeddings (`vector_store.py:10`). -/
def EMBEDDING_DIM : ℕ := 384

/-- The FAISS `IndexFlatL2` state together with the position-to-product_id
list `product_ids` (`vector_store.py:13-16`): the index holds the embeddings
in insertion order. -/
structure VectorStore where
  entries : List (List ℚ)
  product_ids : List String
deriving DecidableEq

/-- The initial module state: an empty index and an empty mapping. -/
def emptyStore : VectorStore := ⟨[], []⟩

/-- Embeds `add_embedding` (`vector_store.py:19-25`): append the vector to the FAISS
index and the id to the mapping. -/
def add_embedding (vs : VectorStore) (product_id : String) (embedding : List ℚ) :
    VectorStore :=
  ⟨vs.entries ++ [embedding], vs.product_ids ++ [product_id]⟩

/-- Squared L2 distance between two vectors of the configured dimension. -/
def l2sq (u v : List ℚ) : ℚ := ((u.zip v).map (fun p => (p.1 - p.2) ^ 2)).sum

/-- The largest finite 32-bit float; FAISS reports this distance on padding
entries. -/
def FLT_MAX : ℚ := 2 ^ 128 - 2 ^ 104

/-- Ascending order on (position, distance) pairs: by distance, ties by
position (a deterministic refinement of the FAISS exhaustive search result
order; no claim depends on the tie rule). -/
def faissRel (a b : ℕ × ℚ) : Prop := a.2 < b.2 ∨ (a.2 = b.2 ∧ a.1 ≤ b.1)

instance : DecidableRel faissRel := fun a b => by
  unfold faissRel; infer_instance

/-- Model of `faiss.IndexFlatL2.search` for one query: the `k` entries of smallest
squared L2 distance as (label, distance) pairs in ascending order; per the
documented FAISS contract, when fewer than `k` vectors are indexed the result
is padded to length `k` with label `-1` and distance `FLT_MAX`. -/
def faissSearch (entries : List (List ℚ)) (q : List ℚ) (k : ℕ) : List (ℤ × ℚ) :=
  let dists := entries.map (l2sq q)
  let sorted := (dists.enum).insertionSort faissRel
  let top := (sorted.take k).map (fun p => ((p.1 : ℤ), p.2))
  top ++ List.replicate (k - top.length) ((-1 : ℤ), FLT_MAX)

/-- The result-building loop of `search_embeddings` (`vector_store.py:39-42`):
keep each (label, distance) pair whose label is below the mapping length,
resolving labels with Python list indexing (negative labels wrap from the
end); an out-of-range resolution is an `IndexError` (`none`). -/
def resolveResults (pids : List String) : List (ℤ × ℚ) → Option (List (String × ℚ))
  | [] => some []
  | (idx, dist) :: rest =>
    if idx < (pids.length : ℤ) then
      match pyIndex pids idx with
      | some pid => (resolveResults pids rest).map (fun tl => (pid, dist) :: tl)
      | none => none
    else resolveResults pids rest

/-- Embeds `search_embeddings` (`vector_store.py:29-43`): empty result on an empty
index, otherwise the FAISS search resolved through `product_ids`. -/
def search_embeddings (vs : VectorStore) (query_embedding : List ℚ) (top_k : ℕ) :
    Option (List (String × ℚ)) :=
  if vs.entries.length = 0 then some []
  else resolveResults vs.product_ids (faissSearch vs.entries query_embedding top_k)

/-! Section: `search.py` helpers -/

/-- Embeds `normalize_number` (`search.py:13-21`): lower-case the token; a k suffix
multiplies by 1000 and truncates via `int(float(...) * 1000)`; otherwise
`int(token)`, whose `ValueError` (e.g. on a token with a decimal point) is
`none`. -/
def normalize_number (token : List Char) : Option ℤ :=
  let t := pyLower token
  if t.getLast? = some 'k' then
    (pyFloatParse t.dropLast).map (fun f => pyTrunc (f * 1000))
  else pyIntParse t

/-- Embeds `min_max_norm` (`search.py:24-31`). -/
def min_max_norm (value min_v max_v : ℚ) : ℚ :=
  if max_v = min_v then 0 else (value - min_v) / (max_v - min_v)

/-- The per-counter population statistics (`get_min_max_counts` result). -/
structure CountStats where
  click_min : ℤ
  click_max : ℤ
  cart_min : ℤ
  cart_max : ℤ
  buy_min : ℤ
  buy_max : ℤ
deriving DecidableEq

instance : Inhabited CountStats := ⟨⟨0, 0, 0, 0, 0, 0⟩⟩

/-- Embeds `get_min_max_counts` (`search.py:34-53`): min and max of each behavioural
counter over the whole store; Python `min`/`max` raise on an empty store
(`none`). -/
def get_min_max_counts (db : List Product) : Option CountStats :=
  let clicks := db.map (·.click_count)
  let carts := db.map (·.add_to_cart_count)
  let buys := db.map (·.purchase_count)
  match pyMin clicks, pyMax clicks, pyMin carts, pyMax carts, pyMin buys, pyMax buys with
  | some a, some b, some c, some d, some e, some f => some ⟨a, b, c, d, e, f⟩
  | _, _, _, _, _, _ => none

/-! Section: `search.py` intent extractors -/

/-- Embeds `extract_price_range` (`search.py:57-79`): the three patterns in priority
order; a `ValueError` inside `normalize_number` aborts the call (`none`);
otherwise `some (min_price, max_price)`. -/
def extract_price_range (query : String) : Option (Option ℤ × Option ℤ) :=
  let q := pyLower query.data
  match reSearch patBetween q with
  | some caps =>
    match (caps.get? 0).bind normalize_number, (caps.get? 1).bind normalize_number with
    | some a, some b => some (some a, some b)
    | _, _ => none
  | none =>
  match reSearch patUnder q with
  | some caps =>
    match (caps.get? 1).bind normalize_number with
    | some x => some (none, some x)
    | none => none
  | none =>
  match reSearch patAbove q with
  | some caps =>
    match (caps.get? 1).bind normalize_number with
    | some x => some (some x, none)
    | none => none
  | none => some (none, none)

/-- Embeds `extract_size` (`search.py:82-85`): the captured word after size, else
no constraint. -/
def extract_size (query : String) : Option String :=
  match reSearch patSize (pyLower query.data) with
  | some caps => (caps.get? 0).map String.mk
  | none => none

/-- The fixed colour vocabulary (`search.py:90`). -/
def colorsList : List String := ["black", "white", "blue", "red", "grey"]

/-- Embeds `extract_color` (`search.py:88-94`): first colour of the fixed list that
is a substring of the lowered query. -/
def extract_color (query : String) : Option String :=
  colorsList.find? (fun c => strContains (strLower query) c)

/-- The brand-lowering comprehension of `search.py:102`: lowering a NULL
brand is the `AttributeError` of `None.lower()`, modelled by `none`. -/
def lowerBrands : List (Option String) → Option (List String)
  | [] => some []
  | none :: _ => none
  | some b :: rest => (lowerBrands rest).map (fun tl => strLower b :: tl)

/-- Embeds `extract_brand` (`search.py:97-106`).  All distinct brand values are
lowered first (`search.py:102`); then the first non-empty brand contained in
the lowered query is returned, else the inner `none` (no constraint). -/
def extract_brand (query : String) (db : List Product) : Option (Option String) :=
  match lowerBrands ((db.map (·.brand)).dedup) with
  | none => none
  | some brands =>
    some (brands.find? (fun b => b ≠ "" && strContains (strLower query) b))

/-- Embeds `extract_rating` (`search.py:109-121`): the bounded pattern first, then
the plain one; the captured token always parses as a float. -/
def extract_rating (query : String) : Option ℚ :=
  let q := pyLower query.data
  match reSearch patRatingBound q with
  | some caps => (caps.get? 1).bind pyFloatParse
  | none =>
  match reSearch patRatingPlain q with
  | some caps => (caps.get? 0).bind pyFloatParse
  | none => none

/-! Section: `search.py` structured filtering (`semantic_search` lines 157-177) -/

/-- The structured intent assembled by `semantic_search` from the extractor
results (spec `QueryIntent`). -/
structure QueryIntent where
  minPrice : Option ℤ
  maxPrice : Option ℤ
  color : Option String
  size : Option String
  brand : Option String
  minRating : Option ℚ
deriving DecidableEq

/-- SQL `column ILIKE concat of percent, pat, percent` on a nullable column:
case-insensitive containment, false on NULL. -/
def optContainsCI (field : Option String) (pat : String) : Bool :=
  match field with
  | some s => strContains (strLower s) (strLower pat)
  | none => false

/-- One conditional filter guarded by Python truthiness (`if brand:` /
`if color:` / `if size:` in the source): skipped when the constraint is
absent or the empty string. -/
def condFilter (o : Option String) (pred : String → Product → Bool)
    (l : List Product) : List Product :=
  match o with
  | some s => if s = "" then l else l.filter (pred s)
  | none => l

/-- One conditional filter guarded by `is not None` (`if min_price is not
None:` etc. in the source). -/
def optFilter {α : Type} (o : Option α) (pred : α → Product → Bool)
    (l : List Product) : List Product :=
  match o with
  | some x => l.filter (pred x)
  | none => l

/-- Embeds the `Product.brand.ilike` filter (`search.py:160`). -/
def brandPred (b : String) (p : Product) : Bool := optContainsCI p.brand b

/-- Embeds the `Product.color.ilike` filter (`search.py:163`). -/
def colorPred (c : String) (p : Product) : Bool := optContainsCI p.color c

/-- Embeds the `Product.size ==` filter (`search.py:166`); SQL NULL equals nothing. -/
def sizePred (s : String) (p : Product) : Bool := p.size == some s

/-- Embeds the `Product.price >= min_price` filter (`search.py:169`). -/
def minPricePred (m : ℤ) (p : Product) : Bool := decide ((m : ℚ) ≤ p.price)

/-- Embeds the `Product.price <= max_price` filter (`search.py:172`). -/
def maxPricePred (m : ℤ) (p : Product) : Bool := decide (p.price ≤ (m : ℚ))

/-- Embeds the `Product.rating >= rating` filter (`search.py:175`). -/
def ratingPred (r : ℚ) (p : Product) : Bool := decide (r ≤ p.rating)

/-- The structured filter block of `semantic_search` (`search.py:157-177`):
candidate-id membership, then the six conditional filters in source order. -/
def applyFilters (ids : List String) (it : QueryIntent) (db : List Product) :
    List Product :=
  let q0 := db.filter (fun p => ids.contains p.product_id)
  let q1 := condFilter it.brand brandPred q0
  let q2 := condFilter it.color colorPred q1
  let q3 := condFilter it.size sizePred q2
  let q4 := optFilter it.minPrice minPricePred q3
  let q5 := optFilter it.maxPrice maxPricePred q4
  optFilter it.minRating ratingPred q5

/-- The spec reading of the filter contract (`spec.md` 4.3), written from the
spec words, to be compared with `applyFilters`: the product satisfies every
present constraint — brand and colour case-insensitive substring, size exact
equality, price within the present bounds, rating at least the minimum. -/
def specSatisfiesB (it : QueryIntent) (p : Product) : Bool :=
  (match it.brand with | some b => optContainsCI p.brand b | none => true) &&
  (match it.color with | some c => optContainsCI p.color c | none => true) &&
  (match it.size with | some s => p.size == some s | none => true) &&
  (match it.minPrice with | some m => decide ((m : ℚ) ≤ p.price) | none => true) &&
  (match it.maxPrice with | some m => decide (p.price ≤ (m : ℚ)) | none => true) &&
  (match it.minRating with | some r => decide (r ≤ p.rating) | none => true)

/-! Section: `search.py` scoring and ranking (`semantic_search` lines 181-243) -/

/-- Model of `dict(candidates).get(key, default)`: the dict comprehension of
`search.py:145` keeps the last binding of a repeated key. -/
def dictGetD (l : List (String × ℚ)) (key : String) (dflt : ℚ) : ℚ :=
  match l.reverse.find? (fun p => p.1 == key) with
  | some p => p.2
  | none => dflt

/-- The unrounded per-candidate scores of the loop body
(`search.py:186-217`). -/
structure RawScores where
  semantic : ℚ
  nclick : ℚ
  ncart : ℚ
  nbuy : ℚ
  nbounce : ℚ
  final : ℚ
deriving DecidableEq

/-- The loop body computations on a product with retrieval distance
`distance` (`search.py:188-217`). -/
def rawScores (stats : CountStats) (distance : ℚ) (p : Product) : RawScores :=
  let semantic := 1 / (1 + distance)
  let nclick := min_max_norm (p.click_count : ℚ) (stats.click_min : ℚ) (stats.click_max : ℚ)
  let ncart := min_max_norm (p.add_to_cart_count : ℚ) (stats.cart_min : ℚ) (stats.cart_max : ℚ)
  let nbuy := min_max_norm (p.purchase_count : ℚ) (stats.buy_min : ℚ) (stats.buy_max : ℚ)
  let bounce : ℤ := max (p.click_count - p.add_to_cart_count - p.purchase_count) 0
  let nbounce := min_max_norm (bounce : ℚ) (stats.click_min : ℚ) (stats.click_max : ℚ)
  let final := 0.55 * semantic + 0.20 * nbuy + 0.15 * ncart + 0.10 * nclick - 0.10 * nbounce
  ⟨semantic, nclick, ncart, nbuy, nbounce, final⟩

/-- The per-candidate record appended to `ranked_results`
(`search.py:219-231`): component scores rounded to 4 digits, the product
itself, paired with the unrounded final score used as the sort key. -/
structure SearchRec where
  product : Product
  semantic_score : ℚ
  norm_click : ℚ
  norm_cart : ℚ
  norm_buy : ℚ
  norm_bounce : ℚ
deriving DecidableEq

/-- One iteration of the scoring loop (`search.py:186-231`): the FAISS
distance is looked up with default 1.0. -/
def scoreProduct (stats : CountStats) (dmap : List (String × ℚ)) (p : Product) :
    ℚ × SearchRec :=
  let distance := dictGetD dmap p.product_id 1
  let w := rawScores stats distance p
  (w.final,
   ⟨p, round4 w.semantic, round4 w.nclick, round4 w.ncart, round4 w.nbuy, round4 w.nbounce⟩)

/-- Descending order on position-tagged scored records: by unrounded final
score, ties by original position — exactly the stable descending
`list.sort(key, reverse=True)` of `search.py:234`. -/
def rankRel (a b : ℕ × ℚ × SearchRec) : Prop :=
  b.2.1 < a.2.1 ∨ (a.2.1 = b.2.1 ∧ a.1 ≤ b.1)

instance : DecidableRel rankRel := fun a b => by
  unfold rankRel; infer_instance

/-- Model of the sort call of `search.py:234`: stable
descending sort by the unrounded final score. -/
def pySortDesc (l : List (ℚ × SearchRec)) : List (ℚ × SearchRec) :=
  ((l.enum).insertionSort rankRel).map Prod.snd

/-- The record returned to the API (`search.py:237-243`): the rounded
component scores plus the final score rounded after sorting and truncation. -/
structure SearchResult where
  product : Product
  semantic_score : ℚ
  norm_click : ℚ
  norm_cart : ℚ
  norm_buy : ℚ
  norm_bounce : ℚ
  final_score : ℚ
deriving DecidableEq

/-- The comprehension item of `search.py:237-243`. -/
def finalizeRec (x : ℚ × SearchRec) : SearchResult :=
  ⟨x.2.product, x.2.semantic_score, x.2.norm_click, x.2.norm_cart, x.2.norm_buy,
   x.2.norm_bounce, round4 x.1⟩

/-- Embeds `semantic_search` (`search.py:125-243`).  The embedding model is the
external collaborator `encode`; the SQL session is the product list `db`;
`none` is an uncaught exception inside the pipeline. -/
def semantic_search (vs : VectorStore) (db : List Product)
    (encode : String → List ℚ) (query : String) (top_k : ℕ) :
    Option (List SearchResult) :=
  let query_embedding := encode query
  let FAISS_K := top_k * 5
  match search_embeddings vs query_embedding FAISS_K with
  | none => none
  | some candidates =>
  if candidates = [] then some [] else
  let dmap := candidates
  let product_ids := (candidates.map Prod.fst).dedup
  match extract_brand query db with
  | none => none
  | some brand =>
  let color := extract_color query
  let size := extract_size query
  let rating := extract_rating query
  match extract_price_range query with
  | none => none
  | some prange =>
  let products := applyFilters product_ids
    ⟨prange.1, prange.2, color, size, brand, rating⟩ db
  if products = [] then some [] else
  match get_min_max_counts db with
  | none => none
  | some stats =>
  some (((pySortDesc (products.map (scoreProduct stats dmap))).take top_k).map finalizeRec)

/-! Section: Shared helper lemmas -/

/-- Membership in a truthiness-guarded filter implies membership below and the
predicate for a present non-empty constraint. -/
theorem mem_condFilter {o : Option String} {pred : String → Product → Bool}
    {l : List Product} {p : Product} (h : p ∈ condFilter o pred l) :
    p ∈ l ∧ ∀ s, o = some s → s ≠ "" → pred s p = true := by
  cases o with
  | none => exact ⟨h, by intro s hs; cases hs⟩
  | some s =>
    by_cases hs : s = ""
    · subst hs
      refine ⟨by simpa [condFilter] using h, ?_⟩
      intro t ht hne; cases ht; exact absurd rfl hne
    · rw [condFilter, if_neg hs] at h
      refine ⟨(List.mem_filter.mp h).1, ?_⟩
      intro t ht _; cases ht; exact (List.mem_filter.mp h).2

/-- Membership in an `is not None`-guarded filter implies membership below
and the predicate for a present constraint. -/
theorem mem_optFilter {α : Type} {o : Option α} {pred : α → Product → Bool}
    {l : List Product} {p : Product} (h : p ∈ optFilter o pred l) :
    p ∈ l ∧ ∀ x, o = some x → pred x p = true := by
  cases o with
  | none => exact ⟨h, by intro x hx; cases hx⟩
  | some x =>
    refine ⟨(List.mem_filter.mp h).1, ?_⟩
    intro y hy; cases hy; exact (List.mem_filter.mp h).2

/-- Every product surviving the structured filter block is a row of the
store. -/
theorem mem_applyFilters_mem_db {ids : List String} {it : QueryIntent}
    {db : List Product} {p : Product} (h : p ∈ applyFilters ids it db) : p ∈ db := by
  unfold applyFilters at h
  have h5 := (mem_optFilter h).1
  have h4 := (mem_optFilter h5).1
  have h3 := (mem_optFilter h4).1
  have h2 := (mem_condFilter h3).1
  have h1 := (mem_condFilter h2).1
  have h0 := (mem_condFilter h1).1
  exact (List.mem_filter.mp h0).1

/-! Section: Claim theorems -/

/-- C8: `min_max_norm` returns exactly 0 on a degenerate population
(`min == max`), and on a non-degenerate population maps any value within the
bounds into the unit interval. -/
theorem min_max_norm_bounds (v mn mx : ℚ) :
    (mn = mx → min_max_norm v mn mx = 0) ∧
    (mn < mx → mn ≤ v → v ≤ mx →
      0 ≤ min_max_norm v mn mx ∧ min_max_norm v mn mx ≤ 1) := by
  constructor
  · intro h; simp [min_max_norm, h]
  · intro hlt hle1 hle2
    have hne : mx ≠ mn := ne_of_gt hlt
    rw [min_max_norm, if_neg hne]
    constructor
    · exact div_nonneg (by linarith) (by linarith)
    · rw [div_le_one (by linarith)]; linarith

/-- Witness for C8 at concrete inputs. -/
theorem min_max_norm_bounds_witness :
    min_max_norm 7 4 4 = 0 ∧ (0 ≤ min_max_norm 3 1 5 ∧ min_max_norm 3 1 5 ≤ 1) :=
  ⟨(min_max_norm_bounds 7 4 4).1 rfl,
   (min_max_norm_bounds 3 1 5).2 (by decide) (by decide) (by decide)⟩

/-- C6: the loop body computes `semanticScore = 1 / (1 + distance)` (equal to
1 exactly when the distance is 0) and fuses the final score as
`0.55*semantic + 0.20*buy + 0.15*cart + 0.10*click - 0.10*bounce`, the fused
value being the sort key produced by `scoreProduct`. -/
theorem score_fusion_formula (stats : CountStats) (d : ℚ) (p : Product) :
    (rawScores stats d p).semantic = 1 / (1 + d) ∧
    (d = 0 → (rawScores stats d p).semantic = 1) ∧
    (rawScores stats d p).final =
      0.55 * (rawScores stats d p).semantic + 0.20 * (rawScores stats d p).nbuy
        + 0.15 * (rawScores stats d p).ncart + 0.10 * (rawScores stats d p).nclick
        - 0.10 * (rawScores stats d p).nbounce ∧
    (∀ dmap, (scoreProduct stats dmap p).1 =
      (rawScores stats (dictGetD dmap p.product_id 1) p).final) := by
  refine ⟨rfl, ?_, rfl, fun dmap => rfl⟩
  intro h
  subst h
  show (1 : ℚ) / (1 + 0) = 1
  norm_num

/-- Witness for C6 at a zero distance. -/
theorem score_fusion_formula_witness :
    (rawScores ⟨0, 0, 0, 0, 0, 0⟩ 0
      ⟨"w", "t", "d", "c", none, 1, none, none, 1, 0, 0, 0⟩).semantic = 1 :=
  (score_fusion_formula ⟨0, 0, 0, 0, 0, 0⟩ 0
    ⟨"w", "t", "d", "c", none, 1, none, none, 1, 0, 0, 0⟩).2.1 rfl

/-- A product with 10 clicks, 2 cart adds and 1 purchase. -/
def pBounce : Product :=
  ⟨"pb", "t", "d", "c", some ("b"), 10, some ("m"), some ("black"), 4, 10, 2, 1⟩

/-- C9: the bounce signal is `max(click - cart - buy, 0)` and it is
normalized with the click counter bounds (not an own bounce range); on the
10/2/1 example the bounce is 7. -/
theorem bounce_signal (stats : CountStats) (d : ℚ) (p : Product) :
    (rawScores stats d p).nbounce =
      min_max_norm
        ((max (p.click_count - p.add_to_cart_count - p.purchase_count) 0 : ℤ) : ℚ)
        (stats.click_min : ℚ) (stats.click_max : ℚ) ∧
    max (pBounce.click_count - pBounce.add_to_cart_count - pBounce.purchase_count) 0 = 7 ∧
    (rawScores stats d pBounce).nbounce =
      min_max_norm ((7 : ℤ) : ℚ) (stats.click_min : ℚ) (stats.click_max : ℚ) := by
  refine ⟨rfl, by decide, rfl⟩

/-- C10: whenever the filtered product list is non-empty, the store itself is
non-empty, so the behavioural min/max statistics are defined (the empty-
population `ValueError` inside `get_min_max_counts` is unreachable from the
pipeline, which only calls it after the non-empty check). -/
theorem stats_defined_after_nonempty_filter (ids : List String) (it : QueryIntent)
    (db : List Product) (h : applyFilters ids it db ≠ []) :
    db ≠ [] ∧ (get_min_max_counts db).isSome = true := by
  obtain ⟨p, hp⟩ := List.exists_mem_of_ne_nil _ h
  have hdb : p ∈ db := mem_applyFilters_mem_db hp
  have hne : db ≠ [] := fun e => by subst e; cases hdb
  refine ⟨hne, ?_⟩
  cases db with
  | nil => exact absurd rfl hne
  | cons x xs => simp [get_min_max_counts, pyMin, pyMax]

/-- A sample product used by concrete instantiations. -/
def pSample : Product :=
  ⟨"p1", "t", "d", "c", some ("acme"), 10, some ("m"), some ("black"), 4, 3, 2, 1⟩

/-- Witness for C10 at a one-product store with no constraints. -/
theorem stats_defined_after_nonempty_filter_witness :
    ([pSample] : List Product) ≠ [] ∧
      (get_min_max_counts [pSample]).isSome = true :=
  stats_defined_after_nonempty_filter ["p1"] ⟨none, none, none, none, none, none⟩
    [pSample] (by decide)

/-- The intent carrying an empty-string size constraint. -/
def itEmptySize : QueryIntent := ⟨none, none, none, some (""), none, none⟩

/-- Counterexample to C4 as stated: with the present size constraint
an empty size string, Python truthiness (`if size:`) skips the size filter,
so a product of size m survives the structured filter while failing the
exact-equality size constraint. -/
theorem filter_conjunction_counterexample :
    pSample ∈ applyFilters ["p1"] itEmptySize [pSample] ∧
      specSatisfiesB itEmptySize pSample = false := by
  decide

/-- C4 (amended): provided each present string constraint (brand, colour,
size) is a non-empty string, every product in the structured-filter result
has its identifier among the candidates and satisfies every present
constraint conjunctively. -/
theorem filter_conjunction (ids : List String) (it : QueryIntent)
    (db : List Product) (p : Product)
    (hb : it.brand ≠ some ("")) (hc : it.color ≠ some ("")) (hs : it.size ≠ some (""))
    (hp : p ∈ applyFilters ids it db) :
    ids.contains p.product_id = true ∧ specSatisfiesB it p = true := by
  unfold applyFilters at hp
  obtain ⟨hp5, hrat⟩ := mem_optFilter hp
  obtain ⟨hp4, hmax⟩ := mem_optFilter hp5
  obtain ⟨hp3, hmin⟩ := mem_optFilter hp4
  obtain ⟨hp2, hsize⟩ := mem_condFilter hp3
  obtain ⟨hp1, hcolor⟩ := mem_condFilter hp2
  obtain ⟨hp0, hbrand⟩ := mem_condFilter hp1
  refine ⟨(List.mem_filter.mp hp0).2, ?_⟩
  rw [specSatisfiesB]
  simp only [Bool.and_eq_true]
  refine ⟨⟨⟨⟨⟨?_, ?_⟩, ?_⟩, ?_⟩, ?_⟩, ?_⟩
  · cases hob : it.brand with
    | none => rfl
    | some b => exact hbrand b hob (fun e => hb (by rw [hob, e]))
  · cases hoc : it.color with
    | none => rfl
    | some c => exact hcolor c hoc (fun e => hc (by rw [hoc, e]))
  · cases hos : it.size with
    | none => rfl
    | some s => exact hsize s hos (fun e => hs (by rw [hos, e]))
  · cases hom : it.minPrice with
    | none => rfl
    | some m => exact hmin m hom
  · cases hom : it.maxPrice with
    | none => rfl
    | some m => exact hmax m hom
  · cases hor : it.minRating with
    | none => rfl
    | some r => exact hrat r hor

/-- Witness for C4 at a fully constrained concrete intent. -/
theorem filter_conjunction_witness :
    (["p1"] : List String).contains pSample.product_id = true ∧
      specSatisfiesB ⟨some 5, some 20, some ("black"), some ("m"), some ("acme"), some 4⟩
        pSample = true :=
  filter_conjunction ["p1"] ⟨some 5, some 20, some ("black"), some ("m"), some ("acme"), some 4⟩
    [pSample] pSample (by decide) (by decide) (by decide) (by decide)

/-- The all-zero query/embedding vector of the configured dimension. -/
def zvec : List ℚ := List.replicate EMBEDDING_DIM 0

/-- A store holding exactly one indexed vector, for product P1. -/
def vs1 : VectorStore := add_embedding emptyStore ("P1") zvec

/-- Folding a sequence of `add_embedding` operations over a store. -/
def addAll (ops : List (String × List ℚ)) (s : VectorStore) : VectorStore :=
  ops.foldl (fun acc op => add_embedding acc op.1 op.2) s

/-- Adding an embedding preserves equality of the entry count and the mapping
length, hence so does any sequence of adds. -/
theorem addAll_count_eq (ops : List (String × List ℚ)) (s : VectorStore)
    (h : s.entries.length = s.product_ids.length) :
    (addAll ops s).entries.length = (addAll ops s).product_ids.length := by
  induction ops generalizing s with
  | nil => exact h
  | cons op rest ih =>
    exact ih (add_embedding s op.1 op.2) (by simp [add_embedding, h])

/-- C1: on a store holding exactly one 384-dimensional vector, a search with
`k = 2` returns two (productId, distance) pairs — the FAISS padding entry
(label -1, distance FLT_MAX) passes the `idx < len(product_ids)` guard and
Python negative indexing resolves it to the last product id, so the claimed
claimed exactly-one-pair-per-indexed-entry behaviour for k exceeding the
index size fails. -/
theorem search_k_exceeding_size_duplicates :
    vs1.entries.length = 1 ∧
    (search_embeddings vs1 zvec 2).map (fun l => (l.length, l.map Prod.fst)) =
      some (2, ["P1", "P1"]) := by
  decide

/-- C2: the entry count always equals the mapping length after any sequence
of adds (first conjunct), but a search result identifier can be obtained by
resolving the invalid position -1: with one indexed vector and `k = 2` the
raw FAISS labels are `[0, -1]` and both resolve to P1. -/
theorem index_count_invariant_and_negative_position :
    (∀ ops : List (String × List ℚ),
      (addAll ops emptyStore).entries.length =
        (addAll ops emptyStore).product_ids.length) ∧
    (faissSearch vs1.entries zvec 2).map Prod.fst = [0, -1] ∧
    (search_embeddings vs1 zvec 2).map (List.map Prod.fst) = some ["P1", "P1"] := by
  refine ⟨fun ops => addAll_count_eq ops emptyStore rfl, by decide, by decide⟩

/-- The brand-lowering comprehension completes without raising on any list
without a NULL member. -/
theorem lowerBrands_isSome (l : List (Option String)) (h : ∀ x ∈ l, x ≠ none) :
    ∃ ys, lowerBrands l = some ys := by
  induction l with
  | nil => exact ⟨[], rfl⟩
  | cons x xs ih =>
    obtain ⟨ys, hys⟩ := ih (fun y hy => h y (List.mem_cons_of_mem _ hy))
    cases x with
    | none => exact absurd rfl (h none (List.mem_cons_self _ _))
    | some a => exact ⟨strLower a :: ys, by simp [lowerBrands, hys]⟩

/-- A product whose brand column is NULL (e.g. ingested from a CSV row with
an empty brand cell). -/
def pNullBrand : Product :=
  ⟨"p0", "t", "d", "c", none, 10, some ("m"), some ("black"), 4, 0, 0, 0⟩

/-- C3: on a store containing a NULL brand, brand extraction raises (the
comprehension lowers every brand value before the truthiness guard) even
though no pattern occurs in the query — first conjunct.  On stores with no
NULL brand, each sub-extractor is total and returns no-constraint when its
pattern is absent from the query — second conjunct. -/
theorem extractors_no_raise_on_absent_pattern :
    extract_brand ("hello") [pNullBrand] = none ∧
    ∀ (query : String) (db : List Product),
      (∀ b ∈ db.map (fun p => p.brand), b ≠ none) →
      ((reSearch patBetween (pyLower query.data) = none →
        reSearch patUnder (pyLower query.data) = none →
        reSearch patAbove (pyLower query.data) = none →
        extract_price_range query = some (none, none)) ∧
       (reSearch patSize (pyLower query.data) = none → extract_size query = none) ∧
       ((∀ c ∈ colorsList, strContains (strLower query) c = false) →
        extract_color query = none) ∧
       extract_brand query db ≠ none ∧
       (reSearch patRatingBound (pyLower query.data) = none →
        reSearch patRatingPlain (pyLower query.data) = none →
        extract_rating query = none)) := by
  refine ⟨by decide, ?_⟩
  intro query db hnn
  refine ⟨?_, ?_, ?_, ?_, ?_⟩
  · intro h1 h2 h3
    simp only [extract_price_range, h1, h2, h3]
  · intro h
    simp only [extract_size, h]
  · intro h
    simp only [extract_color]
    rw [List.find?_eq_none]
    intro c hc
    simp [h c hc]
  · obtain ⟨ys, hys⟩ := lowerBrands_isSome ((db.map (fun p => p.brand)).dedup)
      (fun x hx => hnn x (List.mem_dedup.mp hx))
    simp only [extract_brand, hys]
    exact Option.some_ne_none _
  · intro h1 h2
    simp only [extract_rating, h1, h2]

/-- Witness for C3 on a plain query over a store with no NULL brand. -/
theorem extractors_no_raise_witness :
    extract_price_range ("plain tee") = some (none, none) ∧
    extract_size ("plain tee") = none ∧
    extract_color ("plain tee") = none ∧
    extract_brand ("plain tee") [] ≠ none ∧
    extract_rating ("plain tee") = none := by
  have H := (extractors_no_raise_on_absent_pattern).2 ("plain tee") [] (by simp)
  exact ⟨H.1 (by decide) (by decide) (by decide), H.2.1 (by decide),
    H.2.2.1 (by decide), H.2.2.2.1, H.2.2.2.2 (by decide) (by decide)⟩

instance : IsTotal (ℕ × ℚ × SearchRec) rankRel where
  total a b := by
    rcases lt_trichotomy a.2.1 b.2.1 with h | h | h
    · exact Or.inr (Or.inl h)
    · rcases Nat.le_total a.1 b.1 with hl | hl
      · exact Or.inl (Or.inr ⟨h, hl⟩)
      · exact Or.inr (Or.inr ⟨h.symm, hl⟩)
    · exact Or.inl (Or.inl h)

instance : IsTrans (ℕ × ℚ × SearchRec) rankRel where
  trans a b c hab hbc := by
    rcases hab with h1 | ⟨e1, l1⟩ <;> rcases hbc with h2 | ⟨e2, l2⟩
    · exact Or.inl (h2.trans h1)
    · exact Or.inl (e2 ▸ h1)
    · exact Or.inl (by rw [e1]; exact h2)
    · exact Or.inr ⟨e1.trans e2, l1.trans l2⟩

/-- The stable descending sort produces a list sorted by non-increasing
unrounded final score. -/
theorem sorted_pySortDesc (l : List (ℚ × SearchRec)) :
    List.Sorted (fun a b : ℚ × SearchRec => b.1 ≤ a.1) (pySortDesc l) := by
  have hs := List.sorted_insertionSort rankRel l.enum
  exact List.Pairwise.map Prod.snd
    (fun a b hab => by
      rcases hab with h | ⟨e, _⟩
      · exact le_of_lt h
      · exact le_of_eq e.symm) hs

/-- The stable descending sort permutes the scored records. -/
theorem mem_pySortDesc {l : List (ℚ × SearchRec)} {x : ℚ × SearchRec}
    (h : x ∈ pySortDesc l) : x ∈ l := by
  unfold pySortDesc at h
  obtain ⟨y, hy, rfl⟩ := List.mem_map.mp h
  have hm : y ∈ l.enum := (List.perm_insertionSort rankRel l.enum).mem_iff.mp hy
  have := List.mem_map_of_mem Prod.snd hm
  rwa [List.enum_map_snd] at this

/-- C5: any successful search result has length at most `topK` and arises
from a list sorted descending by the unrounded final score, truncated to
`topK` and only then rounded (the final score via `finalizeRec`; every
element of the sorted list is a `scoreProduct` record, whose component
scores are the 4-digit roundings of the raw scores). -/
theorem topk_sorted_round_after (vs : VectorStore) (db : List Product)
    (encode : String → List ℚ) (query : String) (top_k : ℕ)
    (res : List SearchResult)
    (h : semantic_search vs db encode query top_k = some res) :
    res.length ≤ top_k ∧
    ∃ (stats : CountStats) (dmap : List (String × ℚ)) (L : List (ℚ × SearchRec)),
      List.Sorted (fun a b : ℚ × SearchRec => b.1 ≤ a.1) L ∧
      res = (L.take top_k).map finalizeRec ∧
      ∀ x ∈ L, ∃ p : Product, x = scoreProduct stats dmap p := by
  simp only [semantic_search] at h
  split at h
  · exact Option.noConfusion h
  rename_i candidates hse
  split at h
  · cases h
    exact ⟨by simp, default, [], [], by simp, by simp, by simp⟩
  split at h
  · exact Option.noConfusion h
  rename_i brand hbr
  split at h
  · exact Option.noConfusion h
  rename_i prange hpr
  split at h
  · cases h
    exact ⟨by simp, default, [], [], by simp, by simp, by simp⟩
  split at h
  · exact Option.noConfusion h
  rename_i stats hst
  cases h
  refine ⟨by rw [List.length_map, List.length_take]; exact min_le_left _ _,
    stats, candidates, _, sorted_pySortDesc _, rfl, ?_⟩
  intro x hx
  obtain ⟨p, _, hpe⟩ := List.mem_map.mp (mem_pySortDesc hx)
  exact ⟨p, hpe.symm⟩

/-- Witness for C5 on an empty index. -/
theorem topk_sorted_round_after_witness :
    ([] : List SearchResult).length ≤ 10 ∧
    ∃ (stats : CountStats) (dmap : List (String × ℚ)) (L : List (ℚ × SearchRec)),
      List.Sorted (fun a b : ℚ × SearchRec => b.1 ≤ a.1) L ∧
      ([] : List SearchResult) = (L.take 10).map finalizeRec ∧
      ∀ x ∈ L, ∃ p : Product, x = scoreProduct stats dmap p :=
  topk_sorted_round_after emptyStore [] (fun _ => []) "anything" 10 [] (by decide)

/-- Lowering a digit character is the identity. -/
theorem pyCharLower_digit {c : Char} (h : c.isDigit = true) : pyCharLower c = c := by
  rw [pyCharLower, if_neg]
  rintro ⟨h1, -⟩
  have h9 : c ≤ '9' := by
    simp only [Char.isDigit, Bool.and_eq_true, decide_eq_true_eq] at h
    exact h.2
  exact absurd (le_trans h1 h9) (by decide)

/-- Lowering an all-digit token is the identity. -/
theorem pyLower_digits {ds : List Char} (h : ds.all Char.isDigit = true) :
    pyLower ds = ds := by
  rw [pyLower]
  rw [List.all_eq_true] at h
  exact List.map_congr_left (fun c hc => pyCharLower_digit (h c hc)) |>.trans (List.map_id ds)

/-- Parsing a non-empty all-digit token as a float is its numeric value. -/
theorem pyFloatParse_digits {ds : List Char} (hne : ds ≠ []) (hd : ds.all Char.isDigit = true) :
    pyFloatParse ds = some (digitsNat ds : ℚ) := by
  rw [List.all_eq_true] at hd
  rw [pyFloatParse]
  simp only [List.takeWhile_eq_self_iff.mpr hd, List.dropWhile_eq_nil_iff.mpr hd]
  rw [if_neg (by simpa using hne)]

/-- Truncation of a natural value is that value. -/
theorem pyTrunc_natCast (n : ℕ) : pyTrunc ((n : ℕ) : ℚ) = n := by
  rw [pyTrunc, Rat.num_natCast, Rat.den_natCast]
  exact_mod_cast Int.tdiv_one (n : ℤ)

/-- An all-digit token is not the empty string and its last character is not
the k suffix. -/
theorem digits_getLast_ne_k {ds : List Char} (hd : ds.all Char.isDigit = true) :
    ds.getLast? ≠ some 'k' := by
  intro hk
  have hm : 'k' ∈ ds := List.mem_of_mem_getLast? (by rw [hk]; rfl)
  rw [List.all_eq_true] at hd
  exact absurd (hd 'k' hm) (by decide)

/-- Evaluating `normalize_number` on plain and k-suffixed all-digit tokens: the k suffix
multiplies by 1000 (truncation is exact on integers), the plain token parses
directly. -/
theorem normalize_number_digits (ds : List Char) (hne : ds ≠ [])
    (hd : ds.all Char.isDigit = true) :
    normalize_number (ds ++ ['k']) = some ((digitsNat ds : ℤ) * 1000) ∧
    normalize_number ds = some (digitsNat ds : ℤ) := by
  constructor
  · rw [normalize_number]
    have hlow : pyLower (ds ++ ['k']) = ds ++ ['k'] := by
      rw [pyLower, List.map_append, ← pyLower, pyLower_digits hd]
      rfl
    rw [hlow, if_pos (List.getLast?_concat ds), List.dropLast_concat,
      pyFloatParse_digits hne hd, Option.map_some']
    have : (digitsNat ds : ℚ) * 1000 = ((digitsNat ds * 1000 : ℕ) : ℚ) := by push_cast; ring
    congr 1
    rw [this, pyTrunc_natCast]
    push_cast
    ring
  · rw [normalize_number, pyLower_digits hd, if_neg (digits_getLast_ne_k hd),
      pyIntParse, if_pos ⟨hne, hd⟩]

/-- Counterexample to C7 as stated: the token 2.5 matches the numeric group
of the under-pattern, but `normalize_number` applies `int` to it and raises
`ValueError`, so the extraction raises instead of yielding the bound. -/
theorem price_decimal_token_raises : extract_price_range ("under 2.5") = none := by
  decide

/-- C7 (amended): the three price patterns are checked in priority order with
the stated outputs, tokens parsed by `normalize_number` (k suffix = x1000
with truncation; a matched token containing a decimal point and no k suffix
raises instead of yielding a bound); with no match both bounds are absent;
on the concrete query between 2k and 6k the bounds are 2000 and 6000. -/
theorem price_range_priority (query : String) :
    (∀ caps, reSearch patBetween (pyLower query.data) = some caps →
      ∀ a b : ℤ, (caps.get? 0).bind normalize_number = some a →
        (caps.get? 1).bind normalize_number = some b →
        extract_price_range query = some (some a, some b)) ∧
    (reSearch patBetween (pyLower query.data) = none →
      ∀ caps, reSearch patUnder (pyLower query.data) = some caps →
        ∀ x : ℤ, (caps.get? 1).bind normalize_number = some x →
          extract_price_range query = some (none, some x)) ∧
    (reSearch patBetween (pyLower query.data) = none →
      reSearch patUnder (pyLower query.data) = none →
      ∀ caps, reSearch patAbove (pyLower query.data) = some caps →
        ∀ x : ℤ, (caps.get? 1).bind normalize_number = some x →
          extract_price_range query = some (some x, none)) ∧
    (reSearch patBetween (pyLower query.data) = none →
      reSearch patUnder (pyLower query.data) = none →
      reSearch patAbove (pyLower query.data) = none →
      extract_price_range query = some (none, none)) ∧
    (∀ ds : List Char, ds ≠ [] → ds.all Char.isDigit = true →
      normalize_number (ds ++ ['k']) = some ((digitsNat ds : ℤ) * 1000) ∧
      normalize_number ds = some (digitsNat ds : ℤ)) ∧
    normalize_number ("2.5k").data = some 2500 ∧
    extract_price_range ("between 2k and 6k") = some (some 2000, some 6000) := by
  refine ⟨?_, ?_, ?_, ?_, fun ds hne hd => normalize_number_digits ds hne hd,
    by decide, by decide⟩
  · intro caps hs a b ha hb
    simp only [extract_price_range, hs, ha, hb]
  · intro h1 caps hs x hx
    simp only [extract_price_range, h1, hs, hx]
  · intro h1 h2 caps hs x hx
    simp only [extract_price_range, h1, h2, hs, hx]
  · intro h1 h2 h3
    simp only [extract_price_range, h1, h2, h3]

/-- Witness for C7 applying the between-branch at a concrete query. -/
theorem price_range_priority_witness :
    extract_price_range ("between 3 and 9") = some (some 3, some 9) :=
  (price_range_priority ("between 3 and 9")).1 ["3".data, "9".data]
    (by decide) 3 9 (by decide) (by decide)

end ContextualSearch
